import Mathlib

/-!
Verification of the system-monitor dashboard (`monitor.py`).

The Python source is shallowly embedded: CPU tick counters are integers,
float arithmetic is modelled by exact rational arithmetic (every value the
claims mention is exactly representable), dictionaries are association
lists in insertion order, and the stable `list.sort` is modelled by a
stable insertion sort over the same key order (code-point lexicographic).
-/

namespace Monitor

/-- Round a rational to the nearest integer, ties to even; this is the
semantics of the builtin `round` used by `draw_bar` and of the `.1f`
format rounding. -/
def pyRound (q : ℚ) : ℤ :=
  let f := ⌊q⌋
  let r := q - (f : ℚ)
  if r < 1/2 then f
  else if 1/2 < r then f + 1
  else if f % 2 = 0 then f else f + 1

/-- Digits of a one-decimal fixed-point rendering of `n` tenths. -/
def fmtFixed1Nat (n : ℕ) : String :=
  Nat.repr (n / 10) ++ "." ++ Nat.repr (n % 10)

/-- Embedding of the `:.1f` format specifier on a nonnegative-or-negative
rational. -/
def fmtFixed1 (q : ℚ) : String :=
  if q < 0 then "-" ++ fmtFixed1Nat (pyRound (-q * 10)).toNat
  else fmtFixed1Nat (pyRound (q * 10)).toNat

/-- Loop body of `fmt_bytes`: repeatedly divide by 1024 while the current
unit list is nonempty and the magnitude is at least 1024. -/
def fmt_bytes_go : ℚ → List String → String
  | num, [] => fmtFixed1 num ++ "PB"
  | num, unit :: rest =>
    if num < 1024 then fmtFixed1 num ++ unit else fmt_bytes_go (num / 1024) rest

/-- Embedding of `fmt_bytes` from `monitor.py`. -/
def fmt_bytes (num : ℚ) : String := fmt_bytes_go num ["B", "KB", "MB", "GB", "TB"]

/-- Truncation toward zero, the semantics of `int()` on a float. -/
def pyTrunc (q : ℚ) : ℤ := if q < 0 then -⌊-q⌋ else ⌊q⌋

/-- Zero-padded two-digit rendering, the `:02d` format specifier. -/
def pad2 (n : ℤ) : String :=
  let s := Int.repr n
  if s.length < 2 then "0" ++ s else s

/-- Embedding of `fmt_duration` from `monitor.py`; `divmod` floor-divides. -/
def fmt_duration (seconds : ℚ) : String :=
  let s := pyTrunc seconds
  let days := Int.fdiv s 86400
  let rem := Int.fmod s 86400
  let hours := Int.fdiv rem 3600
  let rem2 := Int.fmod rem 3600
  let mins := Int.fdiv rem2 60
  let secs := Int.fmod rem2 60
  if days ≠ 0 then Int.repr days ++ "d " ++ pad2 hours ++ "h " ++ pad2 mins ++ "m"
  else pad2 hours ++ "h " ++ pad2 mins ++ "m " ++ pad2 secs ++ "s"

/-- Embedding of `draw_bar` from `monitor.py`. -/
def draw_bar (value : ℚ) (width : ℕ) : String :=
  let v := max 0 (min 100 value)
  let filled := (pyRound (v / 100 * (width : ℚ))).toNat
  "[" ++ String.mk (List.replicate filled '#') ++
    String.mk (List.replicate (width - filled) '-') ++ "]"

/-- Bar width used twice by `build_panel_lines`: `max(8, min(30, width - 18))`. -/
def bar_width (width : ℕ) : ℕ := max 8 (min 30 (width - 18))

/-- Embedding of `cpu_usage` from `monitor.py`.  The counters are exact
integers; the final division is exact rational arithmetic. -/
def cpu_usage (prev curr : List ℤ) : ℚ :=
  let prev_idle := prev.getD 3 0 + prev.getD 4 0
  let curr_idle := curr.getD 3 0 + curr.getD 4 0
  let prev_total := prev.sum
  let curr_total := curr.sum
  let total_delta := curr_total - prev_total
  let idle_delta := curr_idle - prev_idle
  if total_delta ≤ 0 then 0
  else ((total_delta - idle_delta : ℤ) : ℚ) / ((total_delta : ℤ) : ℚ) * 100

/-- Lexicographic comparison of character lists by code point, the order
Python uses to compare strings. -/
def charListLe : List Char → List Char → Bool
  | [], _ => true
  | _ :: _, [] => false
  | a :: as, b :: bs =>
    if a.toNat < b.toNat then true
    else if b.toNat < a.toNat then false
    else charListLe as bs

/-- Code-point lexicographic order on strings. -/
def strLe (a b : String) : Bool := charListLe a.data b.data

/-- Strip leading and trailing whitespace, the semantics of `str.strip()`. -/
def pyStrip (s : String) : String :=
  String.mk (((s.data.dropWhile Char.isWhitespace).reverse.dropWhile
    Char.isWhitespace).reverse)

/-- Accumulator loop splitting a character list into maximal nonblank runs. -/
def wsTokensAux : List Char → List Char → List String
  | [], acc => if acc.isEmpty then [] else [String.mk acc.reverse]
  | c :: rest, acc =>
    if c.isWhitespace then
      if acc.isEmpty then wsTokensAux rest []
      else String.mk acc.reverse :: wsTokensAux rest []
    else wsTokensAux rest (c :: acc)

/-- Whitespace-run split dropping empty tokens, the semantics of `str.split()`. -/
def pySplit (s : String) : List String := wsTokensAux s.data []

/-- Fixed pseudo-filesystem exclusion set from `monitor.py`. -/
def SKIP_FS : List String :=
  ["proc", "sysfs", "tmpfs", "devtmpfs", "devpts", "overlay", "squashfs", "cgroup",
    "cgroup2", "pstore", "debugfs", "tracefs", "securityfs", "mqueue", "hugetlbfs",
    "configfs", "fusectl"]

/-- Loop body of `list_mounts`: per-line parse, pseudo-filesystem filter,
first-occurrence de-duplication by mount path (via the `seen` set). -/
def list_mounts_loop : List String → List String → List (String × String) →
    List (String × String)
  | [], _, acc => acc
  | line :: rest, seen, acc =>
    let parts := pySplit line
    if parts.length < 3 then list_mounts_loop rest seen acc
    else
      let mount := parts.getD 1 ""
      let fstype := parts.getD 2 ""
      if fstype ∈ SKIP_FS then list_mounts_loop rest seen acc
      else if mount ∈ seen then list_mounts_loop rest seen acc
      else list_mounts_loop rest (mount :: seen) (acc ++ [(mount, fstype)])

/-- Embedding of `list_mounts` from `monitor.py` over the mount-table lines;
the final `mounts.sort(key=...)` is a stable sort by mount path, modelled by
a stable insertion sort over the code-point order. -/
def list_mounts (lines : List String) : List (String × String) :=
  List.insertionSort (fun a b => strLe a.1 b.1 = true) (list_mounts_loop lines [] [])

/-- Per-line parse and pseudo-filesystem filter of the mount table, without
de-duplication; used to state the first-occurrence property of C6. -/
def validEntries (lines : List String) : List (String × String) :=
  lines.filterMap (fun line =>
    let parts := pySplit line
    if parts.length < 3 then none
    else
      let mount := parts.getD 1 ""
      let fstype := parts.getD 2 ""
      if fstype ∈ SKIP_FS then none else some (mount, fstype))

/-- Raw snapshot dictionary: one `Option` field per key the code reads with
`raw.get(key, default)`, so a missing key is `none`. -/
structure RawSnapshot where
  cpu_lines : Option (List (String × List ℤ))
  meminfo : Option (List (String × ℤ))
  loadavg : Option (List String)
  uptime : Option ℚ
  net_bytes : Option (List (String × ℤ × ℤ))
  diskstats : Option (List (String × ℤ × ℤ))
  mounts : Option (List (String × String))
  temps : Option (List ℚ)
  top_cpu : Option (List (String × String × String × String))
  top_mem : Option (List (String × String × String × String))
  disk_usage : Option (List (String × String × ℤ × ℤ))

/-- Previous-cycle state carried by the render loop: the counter subsets and
the stored wall-clock timestamp (`prev.get("time", now)` defaults). -/
structure PrevState where
  cpu_lines : List (String × List ℤ)
  net_bytes : List (String × ℤ × ℤ)
  diskstats : List (String × ℤ × ℤ)
  time : Option ℚ

/-- Derived metrics record; `compute_metrics` always populates every field. -/
structure Metrics where
  cpu_pcts : List (String × ℚ)
  mem_total : ℤ
  mem_used : ℤ
  swap_total : ℤ
  swap_used : ℤ
  loadavg : List String
  uptime : ℚ
  temps : List ℚ
  net_rates : List (String × ℚ × ℚ)
  disk_rates : List (String × ℚ × ℚ)
  disk_usage : List (String × String × ℤ × ℤ)
  top_cpu : List (String × String × String × String)
  top_mem : List (String × String × String × String)

/-- Outcome of the `subprocess.run` call inside `ssh_remote_raw`: either the
3-second timeout fired, or the process completed with an exit status,
standard output and standard error. -/
inductive RunOutcome where
  | timeout : RunOutcome
  | completed : ℤ → String → String → RunOutcome

/-- Embedding of `ssh_remote_raw` from `monitor.py`, parameterized by the
JSON parser (`parse out = none` models a decode error) and by the
subprocess outcome. -/
def ssh_remote_raw (parse : String → Option RawSnapshot) :
    RunOutcome → Option RawSnapshot × Option String
  | RunOutcome.timeout => (none, some "ssh timeout")
  | RunOutcome.completed returncode stdout stderr =>
    if returncode ≠ 0 then
      (none, some (if pyStrip stderr = "" then "ssh failed" else pyStrip stderr))
    else
      match parse stdout with
      | none => (none, some "invalid remote data")
      | some d => (some d, none)

/-- Embedding of `compute_metrics` from `monitor.py`.  `prev = none` models
the falsy empty initial previous-state dictionary; `du` models
`shutil.disk_usage` on a mount path, `none` standing for an `OSError`
(the mount is dropped). -/
def compute_metrics (raw : RawSnapshot) (prev : Option PrevState) (now : ℚ)
    (du : String → Option (ℤ × ℤ)) : Metrics :=
  let cpu_lines := raw.cpu_lines.getD []
  let cpu_pcts :=
    match prev with
    | some p =>
      if p.cpu_lines ≠ [] then
        (cpu_lines.zip p.cpu_lines).map (fun x => (x.1.1, cpu_usage x.2.2 x.1.2))
      else cpu_lines.map (fun x => (x.1, (0 : ℚ)))
    | none => cpu_lines.map (fun x => (x.1, (0 : ℚ)))
  let meminfo := raw.meminfo.getD []
  let mem_total := (List.lookup "MemTotal" meminfo).getD 0 * 1024
  let mem_avail := ((List.lookup "MemAvailable" meminfo).getD
    ((List.lookup "MemFree" meminfo).getD 0)) * 1024
  let mem_used := max (mem_total - mem_avail) 0
  let swap_total := (List.lookup "SwapTotal" meminfo).getD 0 * 1024
  let swap_free := (List.lookup "SwapFree" meminfo).getD 0 * 1024
  let swap_used := max (swap_total - swap_free) 0
  let net_rates :=
    match prev with
    | some p =>
      if p.net_bytes ≠ [] then
        let delta := max (now - p.time.getD now) (1/1000)
        (raw.net_bytes.getD []).map (fun x =>
          let pv := (List.lookup x.1 p.net_bytes).getD (x.2.1, x.2.2)
          (x.1, ((x.2.1 - pv.1 : ℤ) : ℚ) / delta, ((x.2.2 - pv.2 : ℤ) : ℚ) / delta))
      else []
    | none => []
  let disk_rates :=
    match prev with
    | some p =>
      if p.diskstats ≠ [] then
        let delta := max (now - p.time.getD now) (1/1000)
        (raw.diskstats.getD []).map (fun x =>
          let pv := (List.lookup x.1 p.diskstats).getD (x.2.1, x.2.2)
          (x.1, ((x.2.1 - pv.1 : ℤ) : ℚ) * 512 / delta,
            ((x.2.2 - pv.2 : ℤ) : ℚ) * 512 / delta))
      else []
    | none => []
  let disk_usage :=
    match raw.disk_usage with
    | some u => u
    | none =>
      (raw.mounts.getD []).filterMap (fun m =>
        (du m.1).map (fun t => (m.1, m.2, t.1, t.2)))
  ⟨cpu_pcts, mem_total, mem_used, swap_total, swap_used,
    raw.loadavg.getD ["0.00", "0.00", "0.00"], raw.uptime.getD 0,
    raw.temps.getD [], net_rates, disk_rates, disk_usage,
    raw.top_cpu.getD [], raw.top_mem.getD []⟩

/-- Run of `n` spaces, for the justification format specifiers. -/
def spaces (n : ℕ) : String := String.mk (List.replicate n ' ')

/-- Right justification to `n` characters (`:>ns` and numeric width). -/
def rjust (n : ℕ) (s : String) : String :=
  if s.length < n then spaces (n - s.length) ++ s else s

/-- Left justification to `n` characters (`:ns` on strings). -/
def ljust (n : ℕ) (s : String) : String :=
  if s.length < n then s ++ spaces (n - s.length) else s

/-- The `:5.1f` format specifier. -/
def fmt51 (q : ℚ) : String := rjust 5 (fmtFixed1 q)

/-- Separator join, the semantics of `sep.join(...)`. -/
def joinSep (sep : String) : List String → String
  | [] => ""
  | [x] => x
  | x :: y :: rest => x ++ sep ++ joinSep sep (y :: rest)

/-- Character-count prefix, the semantics of `s[:n]` for `n ≥ 0`. -/
def strTake (s : String) (n : ℕ) : String := String.mk (s.data.take n)

/-- Stable sort of key-value items by key in code-point order, the semantics
of `sorted(d.items())` for a dictionary with distinct keys. -/
def sortByFst {α : Type} (l : List (String × α)) : List (String × α) :=
  List.insertionSort (fun a b => strLe a.1 b.1 = true) l

/-- Embedding of `build_panel_lines` from `monitor.py`.  The load-average
unpacking reads the three entries positionally. -/
def build_panel_lines (metrics : Metrics) (title : String) (width : ℕ) :
    List String :=
  let bw := bar_width width
  let cpuSection :=
    match metrics.cpu_pcts with
    | [] => ["CPU  N/A"]
    | (_, total_pct) :: rest =>
      ("CPU  " ++ fmt51 total_pct ++ "% " ++ draw_bar total_pct bw) ::
        (rest.take 8).map (fun x => ljust 4 x.1 ++ " " ++ fmt51 x.2 ++ "%")
  let mem_pct : ℚ :=
    if metrics.mem_total ≠ 0 then
      (metrics.mem_used : ℚ) / (metrics.mem_total : ℚ) * 100 else 0
  let memLine := "MEM  " ++ fmt51 mem_pct ++ "% " ++ draw_bar mem_pct bw ++ " " ++
    fmt_bytes (metrics.mem_used : ℚ) ++ " / " ++ fmt_bytes (metrics.mem_total : ℚ)
  let swap_pct : ℚ :=
    if metrics.swap_total ≠ 0 then
      (metrics.swap_used : ℚ) / (metrics.swap_total : ℚ) * 100 else 0
  let swapLine := "SWAP " ++ fmt51 swap_pct ++ "% " ++ draw_bar swap_pct bw ++ " " ++
    fmt_bytes (metrics.swap_used : ℚ) ++ " / " ++ fmt_bytes (metrics.swap_total : ℚ)
  let temps_text :=
    if metrics.temps ≠ [] then
      joinSep ", " ((metrics.temps.take 3).map (fun t => fmtFixed1 t ++ "C"))
    else "N/A"
  let tempLine := "TEMP " ++ temps_text
  let loadLine := "LOAD " ++ metrics.loadavg.getD 0 "0.00" ++ " " ++
    metrics.loadavg.getD 1 "0.00" ++ " " ++ metrics.loadavg.getD 2 "0.00"
  let uptimeLine := "UPTIME " ++ fmt_duration metrics.uptime
  let netSection := "NET" :: ((sortByFst metrics.net_rates).take 5).map (fun x =>
    "  " ++ ljust 8 x.1 ++ " RX " ++ fmt_bytes x.2.1 ++ "/s TX " ++
      fmt_bytes x.2.2 ++ "/s")
  let duSection := "DISK USAGE" :: (metrics.disk_usage.take 4).map (fun x =>
    let pct : ℚ :=
      if x.2.2.1 ≠ 0 then (x.2.2.2 : ℚ) / (x.2.2.1 : ℚ) * 100 else 0
    "  " ++ ljust 10 (strTake x.1 10) ++ " " ++ fmt51 pct ++ "% " ++
      fmt_bytes (x.2.2.2 : ℚ) ++ " / " ++ fmt_bytes (x.2.2.1 : ℚ))
  let ioSection := "DISK IO" :: ((sortByFst metrics.disk_rates).take 4).map (fun x =>
    "  " ++ ljust 8 x.1 ++ " R " ++ fmt_bytes x.2.1 ++ "/s W " ++
      fmt_bytes x.2.2 ++ "/s")
  let topCpuSection := "TOP CPU" :: (metrics.top_cpu.take 3).map (fun x =>
    "  " ++ rjust 5 x.1 ++ " " ++ ljust 10 (strTake x.2.1 10) ++ " " ++
      rjust 5 x.2.2.1 ++ "% " ++ rjust 5 x.2.2.2 ++ "%")
  let topMemSection := "TOP MEM" :: (metrics.top_mem.take 3).map (fun x =>
    "  " ++ rjust 5 x.1 ++ " " ++ ljust 10 (strTake x.2.1 10) ++ " " ++
      rjust 5 x.2.2.1 ++ "% " ++ rjust 5 x.2.2.2 ++ "%")
  let lines := title :: cpuSection ++ [memLine, swapLine, tempLine, loadLine,
    uptimeLine] ++ netSection ++ duSection ++ ioSection ++ topCpuSection ++
    topMemSection
  lines.map (fun line => strTake line width)

lemma sum_map_add (l : List ℤ) (c : ℤ) :
    (l.map (fun x => x + c)).sum = l.sum + (l.length : ℤ) * c := by
  induction l with
  | nil => simp
  | cons a t ih => simp [ih]; ring

lemma getD_map_add (l : List ℤ) (c : ℤ) (i : ℕ) (h : i < l.length) :
    (l.map (fun x => x + c)).getD i 0 = l.getD i 0 + c := by
  rw [List.getD_eq_getElem?_getD, List.getD_eq_getElem?_getD, List.getElem?_map,
    List.getElem?_eq_getElem h]
  simp

lemma cpu_usage_congr (p c p2 c2 : List ℤ)
    (ht : c.sum - p.sum = c2.sum - p2.sum)
    (hi : c.getD 3 0 + c.getD 4 0 - (p.getD 3 0 + p.getD 4 0) =
      c2.getD 3 0 + c2.getD 4 0 - (p2.getD 3 0 + p2.getD 4 0)) :
    cpu_usage p c = cpu_usage p2 c2 := by
  simp only [cpu_usage]
  rw [ht, hi]

/-- C1: for ten-field tick-counter lists, the per-line CPU usage is
`(total_delta - idle_delta) / total_delta * 100` with `idle_delta` the sum
of the deltas at indexes 3 and 4, it is exactly `0` whenever
`total_delta ≤ 0`, and a total-tick delta of 200 with an idle+iowait delta
of 150 yields exactly 25. -/
theorem cpu_usage_spec (prev curr : List ℤ)
    (hp : prev.length = 10) (hc : curr.length = 10) :
    (curr.sum - prev.sum ≤ 0 → cpu_usage prev curr = 0) ∧
    (0 < curr.sum - prev.sum →
      cpu_usage prev curr =
        (((curr.sum - prev.sum : ℤ) : ℚ) -
            (((curr.getD 3 0 - prev.getD 3 0) + (curr.getD 4 0 - prev.getD 4 0) : ℤ) : ℚ)) /
          ((curr.sum - prev.sum : ℤ) : ℚ) * 100) ∧
    cpu_usage [100, 0, 0, 300, 100, 0, 0, 0, 0, 0]
      [150, 0, 0, 400, 150, 0, 0, 0, 0, 0] = 25 := by
  refine ⟨?_, ?_, ?_⟩
  · intro h
    simp only [cpu_usage]
    rw [if_pos h]
  · intro h
    simp only [cpu_usage]
    rw [if_neg (by omega)]
    push_cast
    ring
  · norm_num [cpu_usage]

/-- Witness for C1 at the concrete 200-total / 150-idle delta sample. -/
theorem cpu_usage_spec_witness :
    cpu_usage [100, 0, 0, 300, 100, 0, 0, 0, 0, 0]
      [150, 0, 0, 400, 150, 0, 0, 0, 0, 0] = 25 :=
  (cpu_usage_spec [100, 0, 0, 300, 100, 0, 0, 0, 0, 0]
    [150, 0, 0, 400, 150, 0, 0, 0, 0, 0] (by decide) (by decide)).2.2

/-- C5: adding the same constant to all ten fields of both samples leaves
the usage percentage unchanged (it depends only on the deltas); the
`total_delta ≤ 0` branch is likewise unchanged since `total_delta` itself
is invariant. -/
theorem cpu_usage_shift (prev curr : List ℤ) (c : ℤ)
    (hp : prev.length = 10) (hc : curr.length = 10) :
    cpu_usage (prev.map (fun x => x + c)) (curr.map (fun x => x + c)) =
      cpu_usage prev curr := by
  apply cpu_usage_congr
  · rw [sum_map_add, sum_map_add, hp, hc]
    ring
  · rw [getD_map_add prev c 3 (by omega), getD_map_add prev c 4 (by omega),
      getD_map_add curr c 3 (by omega), getD_map_add curr c 4 (by omega)]
    ring

/-- Witness for C5: shifting both concrete samples by 7 preserves the value. -/
theorem cpu_usage_shift_witness :
    cpu_usage ([100, 0, 0, 300, 100, 0, 0, 0, 0, 0].map (fun x => x + 7))
        ([150, 0, 0, 400, 150, 0, 0, 0, 0, 0].map (fun x => x + 7)) =
      cpu_usage [100, 0, 0, 300, 100, 0, 0, 0, 0, 0]
        [150, 0, 0, 400, 150, 0, 0, 0, 0, 0] :=
  cpu_usage_shift [100, 0, 0, 300, 100, 0, 0, 0, 0, 0]
    [150, 0, 0, 400, 150, 0, 0, 0, 0, 0] 7 (by decide) (by decide)

lemma pyRound_intCast (z : ℤ) : pyRound (z : ℚ) = z := by
  simp only [pyRound, Int.floor_intCast, sub_self]
  rw [if_pos (by norm_num)]

lemma pyRound_natCast (n : ℕ) : pyRound (n : ℚ) = n := by
  have := pyRound_intCast (n : ℤ)
  rw [Int.cast_natCast] at this
  exact this

lemma fmtFixed1_eq (q : ℚ) (n : ℕ) (h : q * 10 = (n : ℚ)) (h0 : 0 ≤ q) :
    fmtFixed1 q = fmtFixed1Nat n := by
  rw [fmtFixed1, if_neg (not_lt.mpr h0), h, pyRound_natCast]
  simp

lemma draw_bar_clamp (v : ℚ) (w : ℕ) :
    draw_bar v w = draw_bar (max 0 (min 100 v)) w := by
  have h100 : max 0 (min 100 v) ≤ 100 :=
    max_le (by norm_num) (min_le_left 100 v)
  have h0 : 0 ≤ max 0 (min 100 v) := le_max_left 0 (min 100 v)
  simp only [draw_bar]
  rw [min_eq_right h100, max_eq_right h0]

/-- C8: the bar clamps its value to `[0, 100]` and fills
`round(value/100 * w)` cells with hash marks and the rest with dashes
between brackets; 0 is all dashes, 100 all filled, 150 behaves as 100,
negatives behave as 0; and the formatter's bar width is
`max(8, min(30, width - 18))` (the integer formula, matching the natural
subtraction used in the embedding). -/
theorem draw_bar_spec (v : ℚ) (w : ℕ) :
    draw_bar v w = draw_bar (max 0 (min 100 v)) w ∧
    draw_bar 0 w = "[" ++ String.mk (List.replicate w '-') ++ "]" ∧
    draw_bar 100 w = "[" ++ String.mk (List.replicate w '#') ++ "]" ∧
    draw_bar 150 w = draw_bar 100 w ∧
    (v < 0 → draw_bar v w = draw_bar 0 w) ∧
    (0 ≤ v → v ≤ 100 →
      draw_bar v w =
        "[" ++ String.mk (List.replicate (pyRound (v / 100 * (w : ℚ))).toNat '#') ++
          String.mk (List.replicate (w - (pyRound (v / 100 * (w : ℚ))).toNat) '-') ++ "]") ∧
    bar_width w = (max 8 (min 30 ((w : ℤ) - 18))).toNat := by
  have hbody : ∀ x : ℚ, 0 ≤ x → x ≤ 100 →
      draw_bar x w =
        "[" ++ String.mk (List.replicate (pyRound (x / 100 * (w : ℚ))).toNat '#') ++
          String.mk (List.replicate (w - (pyRound (x / 100 * (w : ℚ))).toNat) '-') ++ "]" := by
    intro x hx0 hx100
    simp only [draw_bar]
    rw [min_eq_right hx100, max_eq_right hx0]
  have h0 : draw_bar 0 w = "[" ++ String.mk (List.replicate w '-') ++ "]" := by
    rw [hbody 0 (by norm_num) (by norm_num)]
    have : (0 : ℚ) / 100 * (w : ℚ) = ((0 : ℤ) : ℚ) := by norm_num
    rw [this, pyRound_intCast]
    rfl
  have h100 : draw_bar 100 w = "[" ++ String.mk (List.replicate w '#') ++ "]" := by
    rw [hbody 100 (by norm_num) (by norm_num)]
    have : (100 : ℚ) / 100 * (w : ℚ) = ((w : ℕ) : ℚ) := by norm_num
    rw [this, pyRound_natCast]
    simp
  refine ⟨draw_bar_clamp v w, h0, h100, ?_, ?_, hbody v, by simp only [bar_width]; omega⟩
  · rw [draw_bar_clamp 150 w]
    norm_num
  · intro hv
    rw [draw_bar_clamp v w, min_eq_right (hv.le.trans (by norm_num)), max_eq_left hv.le]

/-- Witness for C8: a negative value renders like 0. -/
theorem draw_bar_spec_witness : draw_bar (-5) 3 = draw_bar 0 3 :=
  (draw_bar_spec (-5) 3).2.2.2.2.1 (by norm_num)

/-- C9: the byte formatter selects the first unit among B/KB/MB/GB/TB at
which the magnitude is below 1024 (dividing by 1024 per step), falls back
to PB, and prints one decimal place; 1023, 1024 and 1048576 format as
"1023.0B", "1.0KB" and "1.0MB". -/
theorem fmt_bytes_spec (n : ℕ) :
    ((n < 1024 → fmt_bytes (n : ℚ) = fmtFixed1 (n : ℚ) ++ "B") ∧
      (1024 ≤ n → n < 1048576 →
        fmt_bytes (n : ℚ) = fmtFixed1 ((n : ℚ) / 1024) ++ "KB") ∧
      (1048576 ≤ n → n < 1073741824 →
        fmt_bytes (n : ℚ) = fmtFixed1 ((n : ℚ) / 1048576) ++ "MB") ∧
      (1073741824 ≤ n → n < 1099511627776 →
        fmt_bytes (n : ℚ) = fmtFixed1 ((n : ℚ) / 1073741824) ++ "GB") ∧
      (1099511627776 ≤ n → n < 1125899906842624 →
        fmt_bytes (n : ℚ) = fmtFixed1 ((n : ℚ) / 1099511627776) ++ "TB") ∧
      (1125899906842624 ≤ n →
        fmt_bytes (n : ℚ) = fmtFixed1 ((n : ℚ) / 1125899906842624) ++ "PB")) ∧
    fmt_bytes 1023 = "1023.0B" ∧ fmt_bytes 1024 = "1.0KB" ∧
    fmt_bytes 1048576 = "1.0MB" := by
  have hlt : ∀ (m : ℕ) (kq bq : ℚ), 0 < kq → 1024 * kq = bq → (m : ℚ) < bq →
      (m : ℚ) / kq < 1024 := by
    intro m kq bq hk hb hm
    rw [div_lt_iff₀ hk]
    linarith
  have hge : ∀ (m : ℕ) (kq bq : ℚ), 0 < kq → 1024 * kq = bq → bq ≤ (m : ℚ) →
      ¬ ((m : ℚ) / kq < 1024) := by
    intro m kq bq hk hb hm
    rw [not_lt, le_div_iff₀ hk]
    linarith
  constructor
  · refine ⟨?_, ?_, ?_, ?_, ?_, ?_⟩
    · intro h1
      simp only [fmt_bytes, fmt_bytes_go]
      rw [if_pos (by exact_mod_cast h1 : (n : ℚ) < 1024)]
    · intro h1 h2
      simp only [fmt_bytes, fmt_bytes_go]
      rw [if_neg (not_lt.mpr (by exact_mod_cast h1 : (1024 : ℚ) ≤ (n : ℚ))),
        if_pos (hlt n 1024 1048576 (by norm_num) (by norm_num) (by exact_mod_cast h2))]
    · intro h1 h2
      simp only [fmt_bytes, fmt_bytes_go]
      rw [if_neg (not_lt.mpr (by exact_mod_cast (by omega : (1024 : ℕ) ≤ n) : (1024 : ℚ) ≤ (n : ℚ))),
        if_neg (hge n 1024 1048576 (by norm_num) (by norm_num) (by exact_mod_cast h1)), div_div,
        show ((1024 : ℚ) * 1024) = 1048576 by norm_num,
        if_pos (hlt n 1048576 1073741824 (by norm_num) (by norm_num) (by exact_mod_cast h2))]
    · intro h1 h2
      simp only [fmt_bytes, fmt_bytes_go]
      rw [if_neg (not_lt.mpr (by exact_mod_cast (by omega : (1024 : ℕ) ≤ n) : (1024 : ℚ) ≤ (n : ℚ))),
        if_neg (hge n 1024 1048576 (by norm_num) (by norm_num)
          (by exact_mod_cast (by omega : (1048576 : ℕ) ≤ n))), div_div,
        show ((1024 : ℚ) * 1024) = 1048576 by norm_num,
        if_neg (hge n 1048576 1073741824 (by norm_num) (by norm_num) (by exact_mod_cast h1)),
        div_div, show ((1048576 : ℚ) * 1024) = 1073741824 by norm_num,
        if_pos (hlt n 1073741824 1099511627776 (by norm_num) (by norm_num) (by exact_mod_cast h2))]
    · intro h1 h2
      simp only [fmt_bytes, fmt_bytes_go]
      rw [if_neg (not_lt.mpr (by exact_mod_cast (by omega : (1024 : ℕ) ≤ n) : (1024 : ℚ) ≤ (n : ℚ))),
        if_neg (hge n 1024 1048576 (by norm_num) (by norm_num)
          (by exact_mod_cast (by omega : (1048576 : ℕ) ≤ n))), div_div,
        show ((1024 : ℚ) * 1024) = 1048576 by norm_num,
        if_neg (hge n 1048576 1073741824 (by norm_num) (by norm_num)
          (by exact_mod_cast (by omega : (1073741824 : ℕ) ≤ n))),
        div_div, show ((1048576 : ℚ) * 1024) = 1073741824 by norm_num,
        if_neg (hge n 1073741824 1099511627776 (by norm_num) (by norm_num)
          (by exact_mod_cast h1)),
        div_div, show ((1073741824 : ℚ) * 1024) = 1099511627776 by norm_num,
        if_pos (hlt n 1099511627776 1125899906842624 (by norm_num) (by norm_num)
          (by exact_mod_cast h2))]
    · intro h1
      simp only [fmt_bytes, fmt_bytes_go]
      rw [if_neg (not_lt.mpr (by exact_mod_cast (by omega : (1024 : ℕ) ≤ n) : (1024 : ℚ) ≤ (n : ℚ))),
        if_neg (hge n 1024 1048576 (by norm_num) (by norm_num)
          (by exact_mod_cast (by omega : (1048576 : ℕ) ≤ n))), div_div,
        show ((1024 : ℚ) * 1024) = 1048576 by norm_num,
        if_neg (hge n 1048576 1073741824 (by norm_num) (by norm_num)
          (by exact_mod_cast (by omega : (1073741824 : ℕ) ≤ n))),
        div_div, show ((1048576 : ℚ) * 1024) = 1073741824 by norm_num,
        if_neg (hge n 1073741824 1099511627776 (by norm_num) (by norm_num)
          (by exact_mod_cast (by omega : (1099511627776 : ℕ) ≤ n))),
        div_div, show ((1073741824 : ℚ) * 1024) = 1099511627776 by norm_num,
        if_neg (hge n 1099511627776 1125899906842624 (by norm_num) (by norm_num)
          (by exact_mod_cast h1)),
        div_div, show ((1099511627776 : ℚ) * 1024) = 1125899906842624 by norm_num]
  · refine ⟨?_, ?_, ?_⟩
    · simp only [fmt_bytes, fmt_bytes_go]
      rw [if_pos (by norm_num)]
      rw [fmtFixed1_eq 1023 10230 (by norm_num) (by norm_num)]
      rfl
    · simp only [fmt_bytes, fmt_bytes_go]
      rw [if_neg (by norm_num)]
      rw [show (1024 : ℚ) / 1024 = 1 by norm_num]
      rw [if_pos (by norm_num)]
      rw [fmtFixed1_eq 1 10 (by norm_num) (by norm_num)]
      rfl
    · simp only [fmt_bytes, fmt_bytes_go]
      rw [if_neg (by norm_num)]
      rw [show (1048576 : ℚ) / 1024 = 1024 by norm_num]
      rw [if_neg (by norm_num)]
      rw [show (1024 : ℚ) / 1024 = 1 by norm_num]
      rw [if_pos (by norm_num)]
      rw [fmtFixed1_eq 1 10 (by norm_num) (by norm_num)]
      rfl

/-- Witness for C9: 2048 bytes land in the KB bucket. -/
theorem fmt_bytes_spec_witness :
    fmt_bytes ((2048 : ℕ) : ℚ) = fmtFixed1 (((2048 : ℕ) : ℚ) / 1024) ++ "KB" :=
  (fmt_bytes_spec 2048).1.2.1 (by norm_num) (by norm_num)

/-- C4: the remote bridge has exactly four outcomes: timeout yields
`(none, "ssh timeout")`; non-zero exit yields `(none, stripped stderr)`, or
`(none, "ssh failed")` when the stripped stderr is empty; zero exit with
unparseable stdout yields `(none, "invalid remote data")`; zero exit with
parseable stdout yields `(parsed, none)`. -/
theorem ssh_remote_raw_spec (parse : String → Option RawSnapshot)
    (rc : ℤ) (out err : String) :
    ssh_remote_raw parse RunOutcome.timeout = (none, some "ssh timeout") ∧
    (rc ≠ 0 → pyStrip err = "" →
      ssh_remote_raw parse (RunOutcome.completed rc out err)
        = (none, some "ssh failed")) ∧
    (rc ≠ 0 → pyStrip err ≠ "" →
      ssh_remote_raw parse (RunOutcome.completed rc out err)
        = (none, some (pyStrip err))) ∧
    (rc = 0 → parse out = none →
      ssh_remote_raw parse (RunOutcome.completed rc out err)
        = (none, some "invalid remote data")) ∧
    (∀ d, rc = 0 → parse out = some d →
      ssh_remote_raw parse (RunOutcome.completed rc out err) = (some d, none)) := by
  refine ⟨rfl, ?_, ?_, ?_, ?_⟩
  · intro h1 h2
    simp only [ssh_remote_raw]
    rw [if_pos h1, if_pos h2]
  · intro h1 h2
    simp only [ssh_remote_raw]
    rw [if_pos h1, if_neg h2]
  · intro h1 h2
    simp only [ssh_remote_raw]
    rw [if_neg (fun hn => hn h1), h2]
  · intro d h1 h2
    simp only [ssh_remote_raw]
    rw [if_neg (fun hn => hn h1), h2]

/-- Witness for C4: non-zero exit with whitespace-only stderr reports
"ssh failed". -/
theorem ssh_remote_raw_spec_witness :
    ssh_remote_raw (fun _ => none) (RunOutcome.completed 1 "" "  ")
      = (none, some "ssh failed") :=
  (ssh_remote_raw_spec (fun _ => none) 1 "" "  ").2.1 (by decide) (by decide)

/-- C7: every line the panel formatter produces has length at most the
target width (the final pass truncates each line). -/
theorem build_panel_lines_width (metrics : Metrics) (title : String) (width : ℕ)
    (line : String) (hmem : line ∈ build_panel_lines metrics title width) :
    line.length ≤ width := by
  simp only [build_panel_lines, List.mem_map] at hmem
  obtain ⟨l, -, rfl⟩ := hmem
  rw [show (strTake l width).length = (l.data.take width).length from rfl,
    List.length_take]
  exact min_le_left _ _

/-- Witness for C7: the truncated title line of an empty metrics record fits
in 5 columns. -/
theorem build_panel_lines_width_witness : (strTake "T" 5).length ≤ 5 :=
  build_panel_lines_width ⟨[], 0, 0, 0, 0, [], 0, [], [], [], [], [], []⟩ "T" 5
    (strTake "T" 5)
    (by simp only [build_panel_lines]
        exact List.mem_map_of_mem _ (List.mem_cons_self _ _))

/-- C3: with no previous sample, every metrics field is defined and takes the
documented degraded value: per-core percentages all zero, empty rate maps,
memory, swap, load averages, uptime and temperatures populated from the
single snapshot with zero/empty defaults for missing raw inputs. -/
theorem compute_metrics_first_cycle (raw : RawSnapshot) (now : ℚ)
    (du : String → Option (ℤ × ℤ)) :
    (compute_metrics raw none now du).cpu_pcts
        = (raw.cpu_lines.getD []).map (fun x => (x.1, (0 : ℚ))) ∧
    (∀ p ∈ (compute_metrics raw none now du).cpu_pcts, p.2 = 0) ∧
    (compute_metrics raw none now du).net_rates = [] ∧
    (compute_metrics raw none now du).disk_rates = [] ∧
    (compute_metrics raw none now du).mem_total
        = (List.lookup "MemTotal" (raw.meminfo.getD [])).getD 0 * 1024 ∧
    (compute_metrics raw none now du).mem_used
        = max ((List.lookup "MemTotal" (raw.meminfo.getD [])).getD 0 * 1024 -
            ((List.lookup "MemAvailable" (raw.meminfo.getD [])).getD
              ((List.lookup "MemFree" (raw.meminfo.getD [])).getD 0)) * 1024) 0 ∧
    (compute_metrics raw none now du).swap_total
        = (List.lookup "SwapTotal" (raw.meminfo.getD [])).getD 0 * 1024 ∧
    (compute_metrics raw none now du).swap_used
        = max ((List.lookup "SwapTotal" (raw.meminfo.getD [])).getD 0 * 1024 -
            (List.lookup "SwapFree" (raw.meminfo.getD [])).getD 0 * 1024) 0 ∧
    (compute_metrics raw none now du).loadavg
        = raw.loadavg.getD ["0.00", "0.00", "0.00"] ∧
    (compute_metrics raw none now du).uptime = raw.uptime.getD 0 ∧
    (compute_metrics raw none now du).temps = raw.temps.getD [] ∧
    (compute_metrics raw none now du).top_cpu = raw.top_cpu.getD [] ∧
    (compute_metrics raw none now du).top_mem = raw.top_mem.getD [] := by
  refine ⟨rfl, ?_, rfl, rfl, rfl, rfl, rfl, rfl, rfl, rfl, rfl, rfl, rfl⟩
  intro p hp
  have e : (compute_metrics raw none now du).cpu_pcts
      = (raw.cpu_lines.getD []).map (fun x => (x.1, (0 : ℚ))) := rfl
  rw [e, List.mem_map] at hp
  obtain ⟨x, -, rfl⟩ := hp
  rfl

/-- Witness for C3: a one-line snapshot yields the zero percentage entry. -/
theorem compute_metrics_first_cycle_witness :
    ("cpu", (0 : ℚ)) ∈ (compute_metrics
      ⟨some [("cpu", [1, 2, 3, 4, 5, 6, 7, 8, 9, 10])], none, none, none, none,
        none, none, none, none, none, none⟩ none 0 (fun _ => none)).cpu_pcts ∧
    (("cpu", (0 : ℚ)) : String × ℚ).2 = 0 :=
  ⟨by decide,
    (compute_metrics_first_cycle
      ⟨some [("cpu", [1, 2, 3, 4, 5, 6, 7, 8, 9, 10])], none, none, none, none,
        none, none, none, none, none, none⟩ 0 (fun _ => none)).2.1
      ("cpu", (0 : ℚ)) (by decide)⟩

/-- C10: with a previous sample holding CPU lines, current and previous lines
are paired positionally and only the common prefix produces per-core
entries: the output length is the minimum of the two lengths. -/
theorem compute_metrics_zip (raw : RawSnapshot) (p : PrevState) (now : ℚ)
    (du : String → Option (ℤ × ℤ)) (h : p.cpu_lines ≠ []) :
    (compute_metrics raw (some p) now du).cpu_pcts
        = ((raw.cpu_lines.getD []).zip p.cpu_lines).map
            (fun x => (x.1.1, cpu_usage x.2.2 x.1.2)) ∧
    (compute_metrics raw (some p) now du).cpu_pcts.length
        = min (raw.cpu_lines.getD []).length p.cpu_lines.length := by
  have e : (compute_metrics raw (some p) now du).cpu_pcts
      = ((raw.cpu_lines.getD []).zip p.cpu_lines).map
          (fun x => (x.1.1, cpu_usage x.2.2 x.1.2)) := by
    simp only [compute_metrics]
    rw [if_pos h]
  exact ⟨e, by rw [e, List.length_map, List.length_zip]⟩

/-- Witness for C10: two current lines against one previous line produce one
entry. -/
theorem compute_metrics_zip_witness :
    (compute_metrics
      ⟨some [("cpu", [1, 0, 0, 0, 0, 0, 0, 0, 0, 0]),
        ("cpu0", [1, 0, 0, 0, 0, 0, 0, 0, 0, 0])], none, none, none, none,
        none, none, none, none, none, none⟩
      (some ⟨[("cpu", [0, 0, 0, 0, 0, 0, 0, 0, 0, 0])], [], [], none⟩)
      0 (fun _ => none)).cpu_pcts.length
      = min ((⟨some [("cpu", [1, 0, 0, 0, 0, 0, 0, 0, 0, 0]),
          ("cpu0", [1, 0, 0, 0, 0, 0, 0, 0, 0, 0])], none, none, none, none,
          none, none, none, none, none, none⟩ : RawSnapshot).cpu_lines.getD []).length
        (⟨[("cpu", [0, 0, 0, 0, 0, 0, 0, 0, 0, 0])], [], [], none⟩ :
          PrevState).cpu_lines.length :=
  (compute_metrics_zip
    ⟨some [("cpu", [1, 0, 0, 0, 0, 0, 0, 0, 0, 0]),
      ("cpu0", [1, 0, 0, 0, 0, 0, 0, 0, 0, 0])], none, none, none, none,
      none, none, none, none, none, none⟩
    ⟨[("cpu", [0, 0, 0, 0, 0, 0, 0, 0, 0, 0])], [], [], none⟩
    0 (fun _ => none) (by decide)).2

/-- C2: network rates are byte deltas over the clamped elapsed time, disk
rates additionally scale sector deltas by 512 bytes; a key absent from the
previous sample defaults its previous value to the current one, so its rate
is exactly 0; and the divisor is at least 1/1000, hence positive even when
the elapsed time is zero. -/
theorem compute_metrics_rates (raw : RawSnapshot) (p : PrevState) (now : ℚ)
    (du : String → Option (ℤ × ℤ)) :
    (0 : ℚ) < max (now - p.time.getD now) (1/1000) ∧
    (p.net_bytes ≠ [] →
      (compute_metrics raw (some p) now du).net_rates
        = (raw.net_bytes.getD []).map (fun x =>
            let pv := (List.lookup x.1 p.net_bytes).getD (x.2.1, x.2.2)
            (x.1, ((x.2.1 - pv.1 : ℤ) : ℚ) / max (now - p.time.getD now) (1/1000),
              ((x.2.2 - pv.2 : ℤ) : ℚ) / max (now - p.time.getD now) (1/1000)))) ∧
    (p.net_bytes ≠ [] → ∀ iface rx tx, (iface, rx, tx) ∈ raw.net_bytes.getD [] →
      List.lookup iface p.net_bytes = none →
      (iface, (0 : ℚ), (0 : ℚ)) ∈ (compute_metrics raw (some p) now du).net_rates) ∧
    (p.diskstats ≠ [] →
      (compute_metrics raw (some p) now du).disk_rates
        = (raw.diskstats.getD []).map (fun x =>
            let pv := (List.lookup x.1 p.diskstats).getD (x.2.1, x.2.2)
            (x.1, ((x.2.1 - pv.1 : ℤ) : ℚ) * 512 / max (now - p.time.getD now) (1/1000),
              ((x.2.2 - pv.2 : ℤ) : ℚ) * 512 / max (now - p.time.getD now) (1/1000)))) ∧
    (p.diskstats ≠ [] → ∀ dev rs ws, (dev, rs, ws) ∈ raw.diskstats.getD [] →
      List.lookup dev p.diskstats = none →
      (dev, (0 : ℚ), (0 : ℚ)) ∈ (compute_metrics raw (some p) now du).disk_rates) := by
  have hnet : p.net_bytes ≠ [] →
      (compute_metrics raw (some p) now du).net_rates
        = (raw.net_bytes.getD []).map (fun x =>
            let pv := (List.lookup x.1 p.net_bytes).getD (x.2.1, x.2.2)
            (x.1, ((x.2.1 - pv.1 : ℤ) : ℚ) / max (now - p.time.getD now) (1/1000),
              ((x.2.2 - pv.2 : ℤ) : ℚ) / max (now - p.time.getD now) (1/1000))) := by
    intro h
    simp only [compute_metrics]
    rw [if_pos h]
  have hdisk : p.diskstats ≠ [] →
      (compute_metrics raw (some p) now du).disk_rates
        = (raw.diskstats.getD []).map (fun x =>
            let pv := (List.lookup x.1 p.diskstats).getD (x.2.1, x.2.2)
            (x.1, ((x.2.1 - pv.1 : ℤ) : ℚ) * 512 / max (now - p.time.getD now) (1/1000),
              ((x.2.2 - pv.2 : ℤ) : ℚ) * 512 / max (now - p.time.getD now) (1/1000))) := by
    intro h
    simp only [compute_metrics]
    rw [if_pos h]
  refine ⟨lt_of_lt_of_le (by norm_num) (le_max_right _ _), hnet, ?_, hdisk, ?_⟩
  · intro h iface rx tx hmem hlk
    rw [hnet h]
    have hf : (fun x : String × ℤ × ℤ =>
        let pv := (List.lookup x.1 p.net_bytes).getD (x.2.1, x.2.2)
        (x.1, ((x.2.1 - pv.1 : ℤ) : ℚ) / max (now - p.time.getD now) (1/1000),
          ((x.2.2 - pv.2 : ℤ) : ℚ) / max (now - p.time.getD now) (1/1000)))
        (iface, rx, tx) = (iface, (0 : ℚ), (0 : ℚ)) := by
      simp [hlk]
    exact hf ▸ List.mem_map_of_mem _ hmem
  · intro h dev rs ws hmem hlk
    rw [hdisk h]
    have hf : (fun x : String × ℤ × ℤ =>
        let pv := (List.lookup x.1 p.diskstats).getD (x.2.1, x.2.2)
        (x.1, ((x.2.1 - pv.1 : ℤ) : ℚ) * 512 / max (now - p.time.getD now) (1/1000),
          ((x.2.2 - pv.2 : ℤ) : ℚ) * 512 / max (now - p.time.getD now) (1/1000)))
        (dev, rs, ws) = (dev, (0 : ℚ), (0 : ℚ)) := by
      simp [hlk]
    exact hf ▸ List.mem_map_of_mem _ hmem

lemma char_lt_iff (a b : Char) : a < b ↔ a.toNat < b.toNat := by
  simp [Char.lt_def, UInt32.lt_def, BitVec.lt_def, Char.toNat, UInt32.toNat]

lemma char_toNat_inj (a b : Char) (h : a.toNat = b.toNat) : a = b :=
  Char.ext (UInt32.ext h)

lemma charListLe_trans : ∀ a b c : List Char,
    charListLe a b = true → charListLe b c = true → charListLe a c = true := by
  intro a
  induction a with
  | nil => intro b c _ _; rfl
  | cons x xs ih =>
    intro b c h1 h2
    cases b with
    | nil => simp [charListLe] at h1
    | cons y ys =>
      cases c with
      | nil => simp [charListLe] at h2
      | cons z zs =>
        simp only [charListLe] at h1 h2 ⊢
        split_ifs at h1 h2 ⊢ <;>
          first
          | rfl
          | omega
          | (exact ih ys zs h1 h2)

lemma charListLe_total : ∀ a b : List Char,
    charListLe a b = true ∨ charListLe b a = true := by
  intro a
  induction a with
  | nil => intro b; left; rfl
  | cons x xs ih =>
    intro b
    cases b with
    | nil => right; rfl
    | cons y ys =>
      simp only [charListLe]
      by_cases h1 : x.toNat < y.toNat
      · left
        rw [if_pos h1]
      · by_cases h2 : y.toNat < x.toNat
        · right
          rw [if_pos h2]
        · rcases ih ys with h | h
          · left
            rw [if_neg h1, if_neg h2]
            exact h
          · right
            rw [if_neg h2, if_neg h1]
            exact h

lemma charListLe_iff_not_lex (x : List Char) : ∀ y : List Char,
    charListLe x y = true ↔ ¬ List.Lex (fun a b : Char => a < b) y x := by
  induction x with
  | nil =>
    intro y
    cases y with
    | nil =>
      exact iff_of_true rfl (fun h => by cases h)
    | cons b bs =>
      exact iff_of_true rfl (List.Lex.not_nil_right _ _)
  | cons a as ih =>
    intro y
    cases y with
    | nil =>
      exact iff_of_false (by simp [charListLe]) (fun h => h List.Lex.nil)
    | cons b bs =>
      have hinv : List.Lex (fun u v : Char => u < v) (b :: bs) (a :: as) ↔
          b < a ∨ (b = a ∧ List.Lex (fun u v : Char => u < v) bs as) := by
        constructor
        · intro h
          cases h with
          | rel h => exact Or.inl h
          | cons h => exact Or.inr ⟨rfl, h⟩
        · rintro (h | ⟨rfl, h⟩)
          · exact List.Lex.rel h
          · exact List.Lex.cons h
      rw [show charListLe (a :: as) (b :: bs)
          = (if a.toNat < b.toNat then true
            else if b.toNat < a.toNat then false else charListLe as bs) from rfl,
        hinv]
      split_ifs with h1 h2
      · refine iff_of_true rfl ?_
        rintro (hba | ⟨rfl, -⟩)
        · rw [char_lt_iff] at hba; omega
        · omega
      · refine iff_of_false (by simp) ?_
        intro hc
        exact hc (Or.inl ((char_lt_iff b a).mpr h2))
      · have hba : b = a := char_toNat_inj b a (by omega)
        subst hba
        simp only [lt_irrefl, false_or, true_and]
        exact ih bs

lemma strLe_iff (a b : String) : strLe a b = true ↔ a ≤ b := by
  rw [String.le_iff_toList_le, show a.toList = a.data from rfl,
    show b.toList = b.data from rfl, ← not_lt]
  exact charListLe_iff_not_lex a.data b.data

instance mountKeyTotal :
    IsTotal (String × String) (fun a b => strLe a.1 b.1 = true) :=
  ⟨fun a b => charListLe_total a.1.data b.1.data⟩

instance mountKeyTrans :
    IsTrans (String × String) (fun a b => strLe a.1 b.1 = true) :=
  ⟨fun a b c h1 h2 => charListLe_trans a.1.data b.1.data c.1.data h1 h2⟩

lemma list_mounts_loop_acc : ∀ (lines seen : List String)
    (acc₁ acc₂ : List (String × String)),
    list_mounts_loop lines seen (acc₁ ++ acc₂)
      = acc₁ ++ list_mounts_loop lines seen acc₂ := by
  intro lines
  induction lines with
  | nil => intro seen acc₁ acc₂; rfl
  | cons line rest ih =>
    intro seen acc₁ acc₂
    simp only [list_mounts_loop]
    split_ifs with h1 h2 h3
    · exact ih seen acc₁ acc₂
    · exact ih seen acc₁ acc₂
    · exact ih seen acc₁ acc₂
    · rw [List.append_assoc]
      exact ih _ acc₁ _

lemma list_mounts_loop_append (lines seen : List String)
    (acc : List (String × String)) :
    list_mounts_loop lines seen acc = acc ++ list_mounts_loop lines seen [] := by
  have := list_mounts_loop_acc lines seen acc []
  rwa [List.append_nil] at this

lemma list_mounts_loop_mem : ∀ (lines seen : List String) (p : String × String),
    p ∈ list_mounts_loop lines seen [] →
    p.1 ∉ seen ∧ p.2 ∉ SKIP_FS ∧
      (validEntries lines).find? (fun q => q.1 == p.1) = some p := by
  intro lines
  induction lines with
  | nil => intro seen p hp; simp [list_mounts_loop] at hp
  | cons line rest ih =>
    intro seen p hp
    simp only [list_mounts_loop] at hp
    by_cases h1 : (pySplit line).length < 3
    · rw [if_pos h1] at hp
      have hv : validEntries (line :: rest) = validEntries rest := by
        simp only [validEntries, List.filterMap_cons]
        rw [if_pos h1]
      rw [hv]
      exact ih seen p hp
    · rw [if_neg h1] at hp
      by_cases h2 : (pySplit line).getD 2 "" ∈ SKIP_FS
      · rw [if_pos h2] at hp
        have hv : validEntries (line :: rest) = validEntries rest := by
          simp only [validEntries, List.filterMap_cons]
          rw [if_neg h1, if_pos h2]
        rw [hv]
        exact ih seen p hp
      · rw [if_neg h2] at hp
        have hv : validEntries (line :: rest)
            = ((pySplit line).getD 1 "", (pySplit line).getD 2 "") :: validEntries rest := by
          simp only [validEntries, List.filterMap_cons]
          rw [if_neg h1, if_neg h2]
        rw [hv]
        by_cases h3 : (pySplit line).getD 1 "" ∈ seen
        · rw [if_pos h3] at hp
          obtain ⟨hs, hskip, hfind⟩ := ih seen p hp
          refine ⟨hs, hskip, ?_⟩
          have hne : (((pySplit line).getD 1 "", (pySplit line).getD 2 "").1 == p.1)
              = false := by
            refine beq_eq_false_iff_ne.mpr ?_
            intro he
            exact hs (he ▸ h3)
          simp only [List.find?_cons, hne]
          exact hfind
        · rw [if_neg h3, List.nil_append,
            list_mounts_loop_append rest _ [((pySplit line).getD 1 "", (pySplit line).getD 2 "")]] at hp
          rcases List.mem_append.mp hp with hp1 | hp2
          · have hpe : p = ((pySplit line).getD 1 "", (pySplit line).getD 2 "") := by
              simpa using hp1
            subst hpe
            refine ⟨h3, h2, ?_⟩
            simp [List.find?_cons]
          · obtain ⟨hs, hskip, hfind⟩ := ih _ p hp2
            have hs' : p.1 ∉ seen := fun hc => hs (List.mem_cons_of_mem _ hc)
            have hne : (((pySplit line).getD 1 "", (pySplit line).getD 2 "").1 == p.1)
                = false := by
              refine beq_eq_false_iff_ne.mpr ?_
              intro he
              exact hs (he ▸ List.mem_cons_self _ _)
            refine ⟨hs', hskip, ?_⟩
            simp only [List.find?_cons, hne]
            exact hfind

lemma list_mounts_loop_nodup : ∀ lines seen : List String,
    ((list_mounts_loop lines seen []).map Prod.fst).Nodup := by
  intro lines
  induction lines with
  | nil => intro seen; simp [list_mounts_loop]
  | cons line rest ih =>
    intro seen
    simp only [list_mounts_loop]
    split_ifs with h1 h2 h3
    · exact ih seen
    · exact ih seen
    · exact ih seen
    · rw [List.nil_append,
        list_mounts_loop_append rest _ [((pySplit line).getD 1 "", (pySplit line).getD 2 "")]]
      simp only [List.singleton_append, List.map_cons, List.nodup_cons]
      refine ⟨?_, ih _⟩
      intro hc
      rw [List.mem_map] at hc
      obtain ⟨q, hq, hq1⟩ := hc
      have := (list_mounts_loop_mem rest _ q hq).1
      exact this (hq1 ▸ List.mem_cons_self _ _)

/-- C6: the mount list never contains a pseudo-filesystem type, each entry is
the first valid mount-table entry for its mount path (duplicates keep the
first occurrence), mount paths are pairwise distinct, and the result is
sorted lexicographically by mount path. -/
theorem list_mounts_spec (lines : List String) :
    (∀ p ∈ list_mounts lines, p.2 ∉ SKIP_FS) ∧
    (∀ p ∈ list_mounts lines,
      (validEntries lines).find? (fun q => q.1 == p.1) = some p) ∧
    ((list_mounts lines).map Prod.fst).Nodup ∧
    (list_mounts lines).Sorted (fun a b => a.1 ≤ b.1) := by
  have hperm : (list_mounts lines).Perm (list_mounts_loop lines [] []) :=
    List.perm_insertionSort _ _
  have hmem : ∀ p, p ∈ list_mounts lines → p ∈ list_mounts_loop lines [] [] :=
    fun p hp => hperm.mem_iff.mp hp
  refine ⟨?_, ?_, ?_, ?_⟩
  · intro p hp
    exact (list_mounts_loop_mem lines [] p (hmem p hp)).2.1
  · intro p hp
    exact (list_mounts_loop_mem lines [] p (hmem p hp)).2.2
  · exact (hperm.map Prod.fst).nodup_iff.mpr (list_mounts_loop_nodup lines [])
  · have hs := List.sorted_insertionSort
      (fun a b : String × String => strLe a.1 b.1 = true) (list_mounts_loop lines [] [])
    exact List.Pairwise.imp (fun h => (strLe_iff _ _).mp h) hs

/-- Witness for C6: with a duplicate mount path and a pseudo filesystem in
the table, the kept entry for "/a" is the first valid one. -/
theorem list_mounts_spec_witness :
    (validEntries ["dev /b ext4 rw", "p /p proc rw", "dev2 /b xfs rw",
      "dev3 /a vfat rw"]).find? (fun q => q.1 == "/a") = some ("/a", "vfat") :=
  (list_mounts_spec ["dev /b ext4 rw", "p /p proc rw", "dev2 /b xfs rw",
    "dev3 /a vfat rw"]).2.1 ("/a", "vfat") (by decide)

/-- Witness for C2: an interface absent from the previous sample gets rate
exactly zero. -/
theorem compute_metrics_rates_witness :
    ("eth1", (0 : ℚ), (0 : ℚ)) ∈ (compute_metrics
      ⟨none, none, none, none, some [("eth1", 5, 7)], none, none, none, none,
        none, none⟩
      (some ⟨[], [("eth0", 1, 2)], [("sda", 0, 0)], some 0⟩) 1
      (fun _ => none)).net_rates :=
  (compute_metrics_rates
    ⟨none, none, none, none, some [("eth1", 5, 7)], none, none, none, none,
      none, none⟩
    ⟨[], [("eth0", 1, 2)], [("sda", 0, 0)], some 0⟩ 1 (fun _ => none)).2.2.1
    (by decide) "eth1" 5 7 (by decide) (by decide)

end Monitor
